import Mathlib

/-!
# Verification of the adversarial-vision-challenge model server

Shallow embedding of `src/adversarial_vision_challenge/server.py`:
the binary-array wire codec (`_encode_arrays` / `_decode_arrays`), the
rate limiter (`_check_rate_limitation`), the startup configuration checks
of `model_server`, the request binder of `_wrap`, and the prediction
dispatch `_predict`.

Modelling conventions:
* numpy dtype strings are modelled in their canonical array-interface
  form (a byteorder character, a numeric kind character, then the item
  size in bytes, e.g. `"<f4"`, `"|u1"`), the form produced by
  `ndarray.dtype.str` — the only form the repository's own encoder emits;
  other spellings are treated as unparseable and make decoding fail.
* raw byte buffers are `List Nat` (one entry per byte);
* Python exceptions raised by a code path (numpy `ValueError`,
  `AssertionError`, `TooManyRequests`, ...) are modelled by `Except`
  with an error type named after the spec's error taxonomy.
-/

namespace AVC

/-! ## Array codec (`_encode_arrays` / `_decode_arrays`) -/

/-- Value of a string of decimal digits. -/
def digitsToNat (cs : List Char) : Nat :=
  cs.foldl (fun acc c => acc * 10 + (c.toNat - 48)) 0

/-- Element size in bytes of a canonical numpy dtype string: a byteorder
character (`<`, `>`, `|`, `=`), a numeric kind character (`b`, `i`, `u`,
`f`, `c`), then the itemsize digits, as in `np.dtype(s).itemsize` for
such strings.  Anything else yields 0, which decoding treats as an
unusable dtype (numpy raises there as well for non-dtype strings). -/
def itemsize (dtype : String) : Nat :=
  match dtype.toList with
  | bo :: k :: rest =>
    if (bo = '<' ∨ bo = '>' ∨ bo = '|' ∨ bo = '=')
        ∧ (k = 'b' ∨ k = 'i' ∨ k = 'u' ∨ k = 'f' ∨ k = 'c')
        ∧ rest ≠ [] ∧ rest.all Char.isDigit then
      digitsToNat rest
    else 0
  | _ => 0

/-- A numpy ndarray as the codec sees it: shape, canonical dtype string,
and the raw bytes of `tobytes()`. -/
structure NumericArray where
  shape : List Nat
  dtype : String
  data : List Nat
deriving Repr, DecidableEq

/-- Computes `prod(shape)`, the element count of an array of that shape. -/
def shapeProd (shape : List Nat) : Nat := shape.foldl (· * ·) 1

/-- Well-formedness of a real ndarray: positive itemsize and
`len(tobytes()) = size * itemsize`, which numpy guarantees. -/
def NumericArray.WF (a : NumericArray) : Prop :=
  0 < itemsize a.dtype ∧ a.data.length = shapeProd a.shape * itemsize a.dtype

instance (a : NumericArray) : Decidable a.WF := by
  unfold NumericArray.WF; infer_instance

/-- A BSON document value as the server manipulates it: scalars, strings,
byte strings, lists, nested documents, decoded numpy arrays, and decoded
PIL images (the latter modelled as the bytes they were opened from). -/
inductive BVal where
  | int (n : Int)
  | str (s : String)
  | bytes (bs : List Nat)
  | list (xs : List BVal)
  | doc (fields : List (String × BVal))
  | arr (a : NumericArray)
  | image (bs : List Nat)

/-- The spec's DecodeError: malformed array descriptor or a buffer that
numpy's `frombuffer` / `reshape` rejects. -/
inductive DecodeError where
  | decodeError
deriving Repr, DecidableEq

/-- Models `np.frombuffer(data, dtype=dtype)`: requires a positive itemsize that
divides the buffer length; yields the element count. -/
def frombufferCount (dtype : String) (dataLen : Nat) : Except DecodeError Nat :=
  if 0 < itemsize dtype then
    if dataLen % itemsize dtype = 0 then .ok (dataLen / itemsize dtype)
    else .error .decodeError
  else .error .decodeError

/-- Models `ndarray.reshape(shape)` on a flat array of `count` elements, for an
integer shape: at most one `-1` (inferred dimension), no other negative
entries, and the resulting element count must equal `count`. -/
def reshape (count : Nat) (shape : List Int) : Except DecodeError (List Nat) :=
  if shape.any (fun i => i < -1) then .error .decodeError
  else if 1 < (shape.filter (fun i => i = -1)).length then .error .decodeError
  else if (shape.filter (fun i => i = -1)).length = 1 then
    let p := shapeProd ((shape.filter (fun i => i ≠ -1)).map Int.toNat)
    if p = 0 then .error .decodeError
    else if count % p = 0 then
      .ok (shape.map (fun i => if i = -1 then count / p else i.toNat))
    else .error .decodeError
  else
    if shapeProd (shape.map Int.toNat) = count then .ok (shape.map Int.toNat)
    else .error .decodeError

/-- Read the `shape` field of an array descriptor: numpy's `reshape`
accepts a bare integer or a sequence of integers. -/
def asShape : BVal → Except DecodeError (List Int)
  | .int n => .ok [n]
  | .list xs => xs.mapM (fun v => match v with
      | .int n => .ok n
      | _ => .error .decodeError)
  | _ => .error .decodeError

/-- Checks `d[key].get('type') == 'array'`: the value under `"type"` is the
string `"array"`. -/
def isArrayTag : Option BVal → Bool
  | some (.str s) => s = "array"
  | _ => false

/-- One value position of `_decode_arrays`: a nested document tagged
`type == "array"` is reconstructed via `np.frombuffer(...).reshape(...)`;
every other value passes through unchanged. -/
def decodeEntry : BVal → Except DecodeError BVal
  | .doc fields =>
    if isArrayTag (fields.lookup "type") then
      match fields.lookup "shape", fields.lookup "dtype", fields.lookup "data" with
      | some shapeVal, some (.str dtype), some (.bytes data) => do
        let shapeInts ← asShape shapeVal
        let count ← frombufferCount dtype data.length
        let shape ← reshape count shapeInts
        .ok (.arr ⟨shape, dtype, data⟩)
      | _, _, _ => .error .decodeError
    else .ok (.doc fields)
  | v => .ok v

/-- Embeds `_decode_arrays`: rewrite each top-level entry of the document through
`decodeEntry`, keeping keys and order; the first entry numpy rejects
aborts the whole decode (the Python loop propagates the exception). -/
def decodeArrays : List (String × BVal) → Except DecodeError (List (String × BVal))
  | [] => .ok []
  | kv :: tl => do
    let v ← decodeEntry kv.2
    let rest ← decodeArrays tl
    .ok ((kv.1, v) :: rest)

/-- One value position of `_encode_arrays`: an ndarray becomes the tagged
descriptor `{'type': 'array', 'shape': ..., 'dtype': ..., 'data': ...}`;
every other value passes through unchanged. -/
def encodeEntry : BVal → BVal
  | .arr a => .doc
      [("type", .str "array"),
       ("shape", .list (a.shape.map (fun (n : Nat) => .int (n : Int)))),
       ("dtype", .str a.dtype),
       ("data", .bytes a.data)]
  | v => v

/-- Embeds `_encode_arrays`: rewrite each top-level entry of the document through
`encodeEntry`, keeping keys and order. -/
def encodeArrays (d : List (String × BVal)) : List (String × BVal) :=
  d.map (fun kv => (kv.1, encodeEntry kv.2))

/-! ## Rate limiter (`_check_rate_limitation`) -/

/-- The spec's RateExceeded error (`werkzeug.exceptions.TooManyRequests`). -/
inductive RateError where
  | rateExceeded
deriving Repr, DecidableEq

/-- Embeds `number_of_max_predictions = int(os.environ.get('NUM_OF_IMAGES', 100)) * 1000`:
the initial budget for a configured image count (default 100). -/
def initialBudget (numOfImages : Nat) : Int := (numOfImages : Int) * 1000

/-- Embeds `_check_rate_limitation`: decrement the global counter, then raise
`TooManyRequests` if the post-decrement value is negative.  Returns the
call's outcome together with the new counter value (the counter is
mutated before the check, so it is updated even on failure). -/
def consume (counter : Int) : Except RateError Unit × Int :=
  let counter := counter - 1
  (if counter < 0 then .error .rateExceeded else .ok (), counter)

/-- Counter value after `k` successive `_check_rate_limitation` calls
starting from `b`. -/
def runConsume (b : Int) : Nat → Int
  | 0 => b
  | k + 1 => (consume (runConsume b k)).2

/-- Outcome of the `n`-th `_check_rate_limitation` call (1-based)
starting from budget `b`. -/
def nthCallResult (b : Int) (n : Nat) : Except RateError Unit :=
  (consume (runConsume b (n - 1))).1

/-! ## Startup configuration (`model_server`, lines 45-56) -/

/-- The spec's fatal ConfigurationError (a failed `assert` in
`model_server` before `app.run`). -/
inductive ConfigError where
  | configError
deriving Repr, DecidableEq

/-- Embeds `DEFAULT_BOUNDS = (0, 255)`. -/
def DEFAULT_BOUNDS : Int × Int := (0, 255)

/-- The startup checks of `model_server`: `assert channel_axis in [1, 3]`,
then `bounds = model.bounds()` — with `AttributeError` (modelled as the
argument being `none`) replaced by `DEFAULT_BOUNDS` — then
`assert bounds == DEFAULT_BOUNDS`.  On success returns the channel axis
and bounds captured by the `_predict` closure. -/
def modelServerConfig (channelAxis : Int) (declaredBounds : Option (Int × Int)) :
    Except ConfigError (Int × (Int × Int)) :=
  if channelAxis = 1 ∨ channelAxis = 3 then
    let bounds := match declaredBounds with
      | some b => b
      | none => DEFAULT_BOUNDS
    if bounds = DEFAULT_BOUNDS then .ok (channelAxis, bounds)
    else .error .configError
  else .error .configError

/-! ## Prediction dispatch (`_predict`, lines 58-76) -/

/-- The spec's ValidationError (a failed `assert` inside `_predict`, or
`int()` applied to a size-0 array). -/
inductive ServerError where
  | validationError
deriving Repr, DecidableEq

/-- A value-level view of an ndarray for the dispatch layer: shape,
canonical dtype string, and the element values in row-major order.
Elements are integers: the pixels reaching `_predict` are uint8 values
and their float32 conversions are exact, and the model outputs the
claims exercise are compared and argmax-ed, for which integer values
suffice. -/
structure ValArray where
  shape : List Nat
  dtype : String
  data : List Int
deriving Repr, DecidableEq

/-- Models `isinstance(image, np.ndarray)`: the argument bound to `image` is
either an ndarray or some other Python value. -/
inductive ImgArg where
  | ndarray (a : ValArray)
  | notArray
deriving Repr

/-- What `model.predictions(image)` returns: a numpy array or a scalar. -/
inductive ModelOut where
  | ndarray (a : ValArray)
  | scalar (n : Int)
deriving Repr

/-- Checks `image.dtype == np.uint8` at the dtype-string level: the canonical
spellings numpy treats as equal to the one-byte unsigned type. -/
def isUint8Dtype (dtype : String) : Bool :=
  dtype = "|u1" ∨ dtype = "<u1" ∨ dtype = ">u1" ∨ dtype = "=u1"

/-- Models `image.astype(np.float32)`: same shape and values (exact for uint8
pixels), dtype becomes little-endian float32. -/
def astypeFloat32 (a : ValArray) : ValArray :=
  { shape := a.shape, dtype := "<f4", data := a.data }

/-- Models `np.transpose(image, [2, 0, 1])` on a rank-3 array `[a, b, c]`:
result shape `[c, a, b]` with `out[i2, i0, i1] = in[i0, i1, i2]`, in
row-major order.  (Left unchanged on other ranks; `_predict` only
applies it after asserting shape `(64, 64, 3)`.) -/
def transpose201 (arr : ValArray) : ValArray :=
  match arr.shape with
  | [a, b, c] =>
    { shape := [c, a, b],
      dtype := arr.dtype,
      data := (List.range (c * a * b)).map (fun k =>
        let i2 := k / (a * b)
        let r := k % (a * b)
        let i0 := r / b
        let i1 := r % b
        arr.data.getD (i0 * (b * c) + i1 * c + i2) 0) }
  | _ => arr

/-- First index of the maximum, tail-recursive accumulator:
`np.argmax` keeps the earliest index on ties (strict `>` to update). -/
def argmaxAux : List Int → Nat → Nat → Int → Nat
  | [], _, best, _ => best
  | x :: xs, i, best, bestVal =>
    if bestVal < x then argmaxAux xs (i + 1) i x
    else argmaxAux xs (i + 1) best bestVal

/-- Models `np.argmax` over the flattened values (first index of the maximum). -/
def argmaxIdx : List Int → Nat
  | [] => 0
  | x :: xs => argmaxAux xs 1 0 x

/-- Embeds `bounds[0] <= prediction < bounds[-1]` followed by `return prediction`. -/
def checkBounds (bounds : Int × Int) (p : Int) : Except ServerError Int :=
  if bounds.1 ≤ p ∧ p < bounds.2 then .ok p else .error .validationError

/-- Output normalization of `_predict` (lines 71-76): a numpy array with
more than one element must have exactly 200 and is argmax-ed; otherwise
`int(prediction)` (which needs a scalar or a one-element array); the
result must lie within the bounds. -/
def normalizeOutput (bounds : Int × Int) : ModelOut → Except ServerError Int
  | .scalar n => checkBounds bounds n
  | .ndarray a =>
    if 1 < a.data.length then
      if a.data.length = 200 then checkBounds bounds ((argmaxIdx a.data : Nat) : Int)
      else .error .validationError
    else
      match a.data with
      | [x] => checkBounds bounds x
      | _ => .error .validationError

/-- Embeds `_predict` (lines 58-76), monolithic, following the Python line by
line: assert ndarray, assert shape `(64, 64, 3)`, assert dtype uint8,
convert to float32, transpose to channel-first when `channel_axis == 1`,
call the model, normalize its output, check the bounds. -/
def predictImpl (channelAxis : Int) (bounds : Int × Int)
    (predictions : ValArray → ModelOut) : ImgArg → Except ServerError Int
  | .notArray => .error .validationError
  | .ndarray a =>
    if a.shape = [64, 64, 3] then
      if isUint8Dtype a.dtype then
        let image := astypeFloat32 a
        let image := if channelAxis = 1 then transpose201 image else image
        match predictions image with
        | .scalar n => checkBounds bounds n
        | .ndarray out =>
          if 1 < out.data.length then
            if out.data.length = 200 then
              checkBounds bounds ((argmaxIdx out.data : Nat) : Int)
            else .error .validationError
          else
            match out.data with
            | [x] => checkBounds bounds x
            | _ => .error .validationError
      else .error .validationError
    else .error .validationError

/-! ## Request binder (`_wrap`'s `wrapper`, lines 142-189) -/

/-- One declared parameter of the wrapped function: its name and whether
its annotation is `PIL.Image.Image` (an "image" parameter). -/
structure Param where
  name : String
  isImage : Bool
deriving Repr, DecidableEq

/-- The declared parameter names of the wrapped function
(`inspect.signature(function).parameters`). -/
def paramNames (schema : List Param) : List String := schema.map Param.name

/-- Whether `params[name].annotation == Image.Image`. -/
def isImageParam (schema : List Param) (name : String) : Bool :=
  match schema.find? (fun p => p.name = name) with
  | some p => p.isImage
  | none => false

/-- An incoming request as the binder sees it: the decoded
binary-document body fields (already passed through `_decode_arrays`),
the query parameters, the form fields, and the uploaded file parts
(raw bytes). -/
structure Request where
  bsonArgs : List (String × BVal)
  queryArgs : List (String × BVal)
  formArgs : List (String × BVal)
  fileArgs : List (String × List Nat)

/-- Embeds `add_argument(name, value)`: skip if the name is already bound, skip
(silently) if the name is not a declared parameter, else bind. -/
def addArgument (schema : List Param) (args : List (String × BVal))
    (name : String) (value : BVal) : List (String × BVal) :=
  if (args.lookup name).isSome then args
  else if name ∈ paramNames schema then args ++ [(name, value)]
  else args

/-- One `add_argument(name, value)` application for an entry of the
body/query/form loops (lines 173-180). -/
def bindStep (schema : List Param) (args : List (String × BVal))
    (kv : String × BVal) : List (String × BVal) :=
  addArgument schema args kv.1 kv.2

/-- One iteration of the files loop (lines 182-189): skip undeclared
names (`continue`), read the bytes, open image-annotated parameters as
PIL images, and `add_argument` the result. -/
def fileStep (schema : List Param) (args : List (String × BVal))
    (kv : String × List Nat) : List (String × BVal) :=
  if kv.1 ∈ paramNames schema then
    addArgument schema args kv.1
      (if isImageParam schema kv.1 then BVal.image kv.2 else BVal.bytes kv.2)
  else args

/-- The binding loop of `wrapper` (lines 162-189): body fields, then
query parameters, then form fields, then files. -/
def bindArgs (schema : List Param) (req : Request) : List (String × BVal) :=
  req.fileArgs.foldl (fileStep schema)
    (req.formArgs.foldl (bindStep schema)
      (req.queryArgs.foldl (bindStep schema)
        (req.bsonArgs.foldl (bindStep schema) [])))

/-! ## Helper lemmas -/

@[simp] theorem except_bind_ok {α β ε : Type} (a : α) (f : α → Except ε β) :
    (Except.ok a : Except ε α) >>= f = f a := rfl

@[simp] theorem except_bind_error {α β ε : Type} (e : ε) (f : α → Except ε β) :
    (Except.error e : Except ε α) >>= f = (Except.error e : Except ε β) := rfl

/-- Unfolding of `decodeEntry` at a document value. -/
theorem decodeEntry_doc (fields : List (String × BVal)) :
    decodeEntry (.doc fields) =
      if isArrayTag (fields.lookup "type") then
        match fields.lookup "shape", fields.lookup "dtype", fields.lookup "data" with
        | some shapeVal, some (.str dtype), some (.bytes data) => do
            let shapeInts ← asShape shapeVal
            let count ← frombufferCount dtype data.length
            let shape ← reshape count shapeInts
            Except.ok (.arr ⟨shape, dtype, data⟩)
        | _, _, _ => .error .decodeError
      else .ok (.doc fields) := rfl

/-- Evaluates `decodeEntry` at a well-shaped tagged array descriptor runs
`frombuffer` and `reshape` on its fields. -/
theorem decodeEntry_tagged (fields : List (String × BVal)) (shapeVal : BVal)
    (dtype : String) (data : List Nat)
    (htag : isArrayTag (fields.lookup "type") = true)
    (hshape : fields.lookup "shape" = some shapeVal)
    (hdtype : fields.lookup "dtype" = some (.str dtype))
    (hdata : fields.lookup "data" = some (.bytes data)) :
    decodeEntry (.doc fields) = (do
      let shapeInts ← asShape shapeVal
      let count ← frombufferCount dtype data.length
      let shape ← reshape count shapeInts
      Except.ok (.arr ⟨shape, dtype, data⟩)) := by
  rw [decodeEntry_doc, if_pos htag, hshape, hdtype, hdata]

theorem lookup_cons_self {β : Type} (k : String) (v : β) (l : List (String × β)) :
    ((k, v) :: l).lookup k = some v := by
  simp [List.lookup]

theorem lookup_cons_ne {β : Type} {k m : String} (v : β) (l : List (String × β))
    (h : m ≠ k) : ((k, v) :: l).lookup m = l.lookup m := by
  simp [List.lookup, beq_eq_false_iff_ne.mpr h]

theorem lookup_append_some {β : Type} {l₁ : List (String × β)}
    (l₂ : List (String × β)) {k : String} {v : β} (h : l₁.lookup k = some v) :
    (l₁ ++ l₂).lookup k = some v := by
  induction l₁ with
  | nil => cases h
  | cons kv tl ih =>
    obtain ⟨k', v'⟩ := kv
    rw [List.cons_append]
    by_cases hk : k = k'
    · subst hk
      rw [lookup_cons_self] at h
      rw [lookup_cons_self]
      exact h
    · rw [lookup_cons_ne _ _ hk] at h
      rw [lookup_cons_ne _ _ hk]
      exact ih h

theorem lookup_append_none {β : Type} {l₁ : List (String × β)}
    (l₂ : List (String × β)) {k : String} (h : l₁.lookup k = none) :
    (l₁ ++ l₂).lookup k = l₂.lookup k := by
  induction l₁ with
  | nil => rfl
  | cons kv tl ih =>
    obtain ⟨k', v'⟩ := kv
    rw [List.cons_append]
    by_cases hk : k = k'
    · subst hk
      rw [lookup_cons_self] at h
      cases h
    · rw [lookup_cons_ne _ _ hk] at h
      rw [lookup_cons_ne _ _ hk]
      exact ih h

theorem lookup_append_single_ne {β : Type} (l : List (String × β))
    {m n : String} (v : β) (h : n ≠ m) :
    (l ++ [(m, v)]).lookup n = l.lookup n := by
  cases hl : l.lookup n with
  | some w => exact lookup_append_some _ hl
  | none =>
    rw [lookup_append_none _ hl, lookup_cons_ne _ _ h]
    rfl

/-- A binding already present survives `add_argument`. -/
theorem addArgument_preserve {schema : List Param} {args : List (String × BVal)}
    {n : String} {v : BVal} (m : String) (w : BVal)
    (h : args.lookup n = some v) :
    (addArgument schema args m w).lookup n = some v := by
  unfold addArgument
  split_ifs with h1 h2
  · exact h
  · exact lookup_append_some _ h
  · exact h

/-- Applying `add_argument` with an undeclared name is a no-op. -/
theorem addArgument_unknown {schema : List Param} (args : List (String × BVal))
    {m : String} (w : BVal) (hm : m ∉ paramNames schema) :
    addArgument schema args m w = args := by
  unfold addArgument
  by_cases h1 : (args.lookup m).isSome
  · rw [if_pos h1]
  · rw [if_neg h1, if_neg hm]

/-- Applying `add_argument` with an unbound, declared name appends the binding. -/
theorem addArgument_bind {schema : List Param} {args : List (String × BVal)}
    {m : String} (w : BVal) (hnone : args.lookup m = none)
    (hm : m ∈ paramNames schema) :
    addArgument schema args m w = args ++ [(m, w)] := by
  unfold addArgument
  rw [hnone]
  simp [hm]

/-- Note that `add_argument` never touches other names. -/
theorem addArgument_lookup_ne {schema : List Param} (args : List (String × BVal))
    {m n : String} (w : BVal) (h : n ≠ m) :
    (addArgument schema args m w).lookup n = args.lookup n := by
  unfold addArgument
  split_ifs with h1 h2
  · rfl
  · exact lookup_append_single_ne _ _ h
  · rfl

theorem foldl_bindStep_preserve (schema : List Param) (l : List (String × BVal)) :
    ∀ (args : List (String × BVal)) {n : String} {v : BVal},
      args.lookup n = some v →
      (l.foldl (bindStep schema) args).lookup n = some v := by
  induction l with
  | nil => intro args n v h; exact h
  | cons kv tl ih =>
    intro args n v h
    exact ih _ (addArgument_preserve kv.1 kv.2 h)

theorem foldl_bindStep_first_match (schema : List Param) (l : List (String × BVal)) :
    ∀ (args : List (String × BVal)) {n : String} {v : BVal},
      args.lookup n = none → n ∈ paramNames schema → l.lookup n = some v →
      (l.foldl (bindStep schema) args).lookup n = some v := by
  induction l with
  | nil => intro args n v _ _ h; cases h
  | cons kv tl ih =>
    intro args n v hargs hn hl
    obtain ⟨m, w⟩ := kv
    by_cases hnm : n = m
    · subst hnm
      rw [lookup_cons_self] at hl
      injection hl with hl
      subst hl
      show (tl.foldl (bindStep schema) (bindStep schema args (n, w))).lookup n = some w
      have hstep : bindStep schema args (n, w) = args ++ [(n, w)] :=
        addArgument_bind w hargs hn
      rw [hstep]
      exact foldl_bindStep_preserve schema tl _
        (by rw [lookup_append_none _ hargs, lookup_cons_self])
    · rw [lookup_cons_ne _ _ hnm] at hl
      show (tl.foldl (bindStep schema) (bindStep schema args (m, w))).lookup n = some v
      have hkeep : (bindStep schema args (m, w)).lookup n = none := by
        show (addArgument schema args m w).lookup n = none
        rw [addArgument_lookup_ne _ _ hnm]
        exact hargs
      exact ih _ hkeep hn hl

theorem foldl_bindStep_absent (schema : List Param) (l : List (String × BVal)) :
    ∀ (args : List (String × BVal)) {n : String}, l.lookup n = none →
      (l.foldl (bindStep schema) args).lookup n = args.lookup n := by
  induction l with
  | nil => intro args n _; rfl
  | cons kv tl ih =>
    intro args n hl
    obtain ⟨m, w⟩ := kv
    by_cases hnm : n = m
    · subst hnm
      rw [lookup_cons_self] at hl
      cases hl
    · rw [lookup_cons_ne _ _ hnm] at hl
      show (tl.foldl (bindStep schema) (bindStep schema args (m, w))).lookup n =
        args.lookup n
      rw [ih _ hl]
      exact addArgument_lookup_ne _ _ hnm

theorem foldl_bindStep_not_param (schema : List Param) (l : List (String × BVal)) :
    ∀ (args : List (String × BVal)) {n : String}, n ∉ paramNames schema →
      (l.foldl (bindStep schema) args).lookup n = args.lookup n := by
  induction l with
  | nil => intro args n _; rfl
  | cons kv tl ih =>
    intro args n hn
    obtain ⟨m, w⟩ := kv
    show (tl.foldl (bindStep schema) (bindStep schema args (m, w))).lookup n =
      args.lookup n
    rw [ih _ hn]
    by_cases hnm : n = m
    · subst hnm
      show (addArgument schema args n w).lookup n = args.lookup n
      rw [addArgument_unknown args w hn]
    · exact addArgument_lookup_ne _ _ hnm

theorem foldl_bindStep_erase_unknown (schema : List Param) {n : String}
    (hn : n ∉ paramNames schema) (l₁ l₂ : List (String × BVal)) (v : BVal)
    (args : List (String × BVal)) :
    (l₁ ++ (n, v) :: l₂).foldl (bindStep schema) args =
      (l₁ ++ l₂).foldl (bindStep schema) args := by
  rw [List.foldl_append, List.foldl_append, List.foldl_cons]
  congr 1
  exact addArgument_unknown _ v hn

theorem foldl_fileStep_preserve (schema : List Param) (l : List (String × List Nat)) :
    ∀ (args : List (String × BVal)) {n : String} {v : BVal},
      args.lookup n = some v →
      (l.foldl (fileStep schema) args).lookup n = some v := by
  induction l with
  | nil => intro args n v h; exact h
  | cons kv tl ih =>
    intro args n v h
    refine ih _ ?_
    show (fileStep schema args kv).lookup n = some v
    unfold fileStep
    by_cases h1 : kv.1 ∈ paramNames schema
    · rw [if_pos h1]
      exact addArgument_preserve kv.1 _ h
    · rw [if_neg h1]
      exact h

theorem foldl_fileStep_first_match (schema : List Param) (l : List (String × List Nat)) :
    ∀ (args : List (String × BVal)) {n : String} {bs : List Nat},
      args.lookup n = none → n ∈ paramNames schema → l.lookup n = some bs →
      (l.foldl (fileStep schema) args).lookup n =
        some (if isImageParam schema n then BVal.image bs else BVal.bytes bs) := by
  induction l with
  | nil => intro args n bs _ _ h; cases h
  | cons kv tl ih =>
    intro args n bs hargs hn hl
    obtain ⟨m, w⟩ := kv
    by_cases hnm : n = m
    · subst hnm
      rw [lookup_cons_self] at hl
      injection hl with hl
      subst hl
      show (tl.foldl (fileStep schema) (fileStep schema args (n, w))).lookup n = _
      have hstep : fileStep schema args (n, w) =
          args ++ [(n, if isImageParam schema n then BVal.image w else BVal.bytes w)] := by
        unfold fileStep
        rw [if_pos hn]
        exact addArgument_bind _ hargs hn
      rw [hstep]
      exact foldl_fileStep_preserve schema tl _
        (by rw [lookup_append_none _ hargs, lookup_cons_self])
    · rw [lookup_cons_ne _ _ hnm] at hl
      show (tl.foldl (fileStep schema) (fileStep schema args (m, w))).lookup n = _
      have hkeep : (fileStep schema args (m, w)).lookup n = none := by
        unfold fileStep
        by_cases h1 : (m, w).1 ∈ paramNames schema
        · rw [if_pos h1, addArgument_lookup_ne _ _ hnm]
          exact hargs
        · rw [if_neg h1]
          exact hargs
      exact ih _ hkeep hn hl

theorem foldl_fileStep_not_param (schema : List Param) (l : List (String × List Nat)) :
    ∀ (args : List (String × BVal)) {n : String}, n ∉ paramNames schema →
      (l.foldl (fileStep schema) args).lookup n = args.lookup n := by
  induction l with
  | nil => intro args n _; rfl
  | cons kv tl ih =>
    intro args n hn
    obtain ⟨m, w⟩ := kv
    show (tl.foldl (fileStep schema) (fileStep schema args (m, w))).lookup n =
      args.lookup n
    rw [ih _ hn]
    show (fileStep schema args (m, w)).lookup n = args.lookup n
    unfold fileStep
    by_cases h1 : (m, w).1 ∈ paramNames schema
    · rw [if_pos h1]
      by_cases hnm : n = m
      · subst hnm
        exact absurd h1 hn
      · exact addArgument_lookup_ne _ _ hnm
    · rw [if_neg h1]

theorem foldl_fileStep_erase_unknown (schema : List Param) {n : String}
    (hn : n ∉ paramNames schema) (l₁ l₂ : List (String × List Nat)) (bs : List Nat)
    (args : List (String × BVal)) :
    (l₁ ++ (n, bs) :: l₂).foldl (fileStep schema) args =
      (l₁ ++ l₂).foldl (fileStep schema) args := by
  rw [List.foldl_append, List.foldl_append, List.foldl_cons]
  congr 1
  show fileStep schema _ (n, bs) = _
  unfold fileStep
  rw [if_neg hn]

theorem map_natCast_toNat (s : List Nat) :
    (s.map (fun (n : Nat) => (n : Int))).map Int.toNat = s := by
  induction s with
  | nil => rfl
  | cons x xs ih => simp [ih]

theorem map_natCast_not_lt_neg_one (s : List Nat) :
    (s.map (fun (n : Nat) => (n : Int))).any (fun i => decide (i < -1)) = false := by
  induction s with
  | nil => rfl
  | cons x xs ih =>
    simp only [List.map_cons, List.any_cons, ih, Bool.or_false, decide_eq_false_iff_not]
    omega

theorem map_natCast_filter_neg_one (s : List Nat) :
    (s.map (fun (n : Nat) => (n : Int))).filter (fun i => decide (i = -1)) = [] := by
  induction s with
  | nil => rfl
  | cons x xs ih =>
    simp only [List.map_cons, List.filter_cons, ih]
    have h : ¬ ((x : Int) = -1) := by omega
    simp [h]

theorem asShape_map_natCast (s : List Nat) :
    asShape (.list (s.map (fun (n : Nat) => .int (n : Int)))) = .ok (s.map (fun (n : Nat) => (n : Int))) := by
  induction s with
  | nil => rfl
  | cons x xs ih =>
    simp only [asShape, List.map_cons, List.mapM_cons] at ih ⊢
    cases h : (xs.map (fun (n : Nat) => BVal.int (n : Int))).mapM
        (fun v => match v with
          | .int n => Except.ok n
          | _ => Except.error DecodeError.decodeError) with
    | error e => rw [h] at ih; cases ih
    | ok l =>
      rw [h] at ih
      cases ih
      simp [h, bind, Except.bind, pure, Except.pure]

/-- Lemma that `reshape` undoes the shape round trip: reshaping `prod s` elements
to the integer image of `s` gives back `s`. -/
theorem reshape_map_natCast (s : List Nat) :
    reshape (shapeProd s) (s.map (fun (n : Nat) => (n : Int))) = .ok s := by
  unfold reshape
  rw [show (s.map (fun (n : Nat) => (n : Int))).any (fun i => i < -1) =
        (s.map (fun (n : Nat) => (n : Int))).any (fun i => decide (i < -1)) from rfl]
  rw [map_natCast_not_lt_neg_one]
  rw [show (s.map (fun (n : Nat) => (n : Int))).filter (fun i => i = -1) =
        (s.map (fun (n : Nat) => (n : Int))).filter (fun i => decide (i = -1)) from rfl]
  rw [map_natCast_filter_neg_one]
  have hmap : s.map (Int.toNat ∘ fun (n : Nat) => (n : Int)) = s := by
    induction s with
    | nil => rfl
    | cons x xs ih => simp [ih]
  simp [hmap]

/-! ## Claim theorems -/

/-- C1: Array codec round-trip — for every NumericArray `A` (any finite
shape, dtype, and byte content, well-formed as numpy guarantees of a
real ndarray), decoding the encoded envelope entry produced from `A`
yields an array with identical shape, identical dtype string, and
byte-identical contents to `A`. -/
theorem C1_codec_round_trip (A : NumericArray) (hWF : A.WF) :
    decodeEntry (encodeEntry (.arr A)) = .ok (.arr A) := by
  obtain ⟨hpos, hlen⟩ := hWF
  have hstep : decodeEntry (encodeEntry (.arr A)) = (do
      let shapeInts ← asShape (.list (A.shape.map (fun (n : Nat) => .int (n : Int))))
      let count ← frombufferCount A.dtype A.data.length
      let shape ← reshape count shapeInts
      Except.ok (.arr ⟨shape, A.dtype, A.data⟩)) := rfl
  have hfb : frombufferCount A.dtype A.data.length = .ok (shapeProd A.shape) := by
    unfold frombufferCount
    rw [hlen]
    simp [Nat.mul_mod_left, hpos, Nat.mul_div_cancel _ hpos]
  rw [hstep, asShape_map_natCast]
  simp only [except_bind_ok]
  rw [hfb]
  simp only [except_bind_ok]
  rw [reshape_map_natCast]
  rfl

/-- C1 witness: the round trip evaluated on a concrete 2×3 float32 array. -/
theorem C1_codec_round_trip_witness :
    (⟨[2, 3], "<f4", List.replicate 24 7⟩ : NumericArray).WF ∧
      decodeEntry (encodeEntry (.arr ⟨[2, 3], "<f4", List.replicate 24 7⟩)) =
        .ok (.arr ⟨[2, 3], "<f4", List.replicate 24 7⟩) :=
  ⟨by decide, C1_codec_round_trip _ (by decide)⟩

/-- The counter after `k` calls is the initial value minus `k`: each call
decrements by exactly one, successful or not. -/
theorem runConsume_eq (b : Int) (k : Nat) : runConsume b k = b - k := by
  induction k with
  | zero => simp [runConsume]
  | succ k ih =>
    simp only [runConsume, consume, ih]
    push_cast
    ring

/-- C2 counterexample: with the default configuration
(`NUM_OF_IMAGES = 100`, budget `B = 100000`, `N = B + 1`), the claim's
"the first N consume() calls succeed" is false — the `N`-th call is the
one that fails with RateExceeded. -/
theorem C2_counterexample :
    nthCallResult (initialBudget 100) (100000 + 1) = .error .rateExceeded ∧
    ¬ (∀ k : Nat, 1 ≤ k → k ≤ 100000 + 1 →
        nthCallResult (initialBudget 100) k = .ok ()) := by
  have h1 : nthCallResult (initialBudget 100) (100000 + 1) = .error .rateExceeded := by
    unfold nthCallResult
    rw [runConsume_eq]
    norm_num [initialBudget, consume]
  refine ⟨h1, fun h => ?_⟩
  have h2 := h (100000 + 1) (by norm_num) (le_refl _)
  rw [h1] at h2
  cases h2

/-- C2 (amended): with budget `B = NUM_OF_IMAGES * 1000` and
`N = B + 1`, the first `N - 1 = B` consume() calls succeed and the
`N`-th call fails with RateExceeded; every call (the failing one
included) moves the counter down by exactly 1, so no transition
increases the remaining budget. -/
theorem C2_rate_limiter_budget (numOfImages : Nat) :
    (∀ k : Nat, 1 ≤ k → (k : Int) ≤ initialBudget numOfImages →
        nthCallResult (initialBudget numOfImages) k = .ok ()) ∧
    nthCallResult (initialBudget numOfImages) (numOfImages * 1000 + 1) =
      .error .rateExceeded ∧
    (∀ c : Int, (consume c).2 = c - 1) := by
  refine ⟨fun k hk1 hkB => ?_, ?_, fun c => rfl⟩
  · unfold nthCallResult
    rw [runConsume_eq]
    have hcast : ((k - 1 : Nat) : Int) = (k : Int) - 1 := by
      omega
    rw [hcast]
    have : ¬ (initialBudget numOfImages - ((k : Int) - 1) - 1 < 0) := by
      omega
    simp [consume, this]
  · unfold nthCallResult
    rw [runConsume_eq]
    have hcast : ((numOfImages * 1000 + 1 - 1 : Nat) : Int) =
        initialBudget numOfImages := by
      unfold initialBudget
      push_cast
      ring
    rw [hcast]
    simp [consume]

/-- C2 witness: with `NUM_OF_IMAGES = 1` (budget 1000), call 1000
succeeds and call 1001 fails. -/
theorem C2_rate_limiter_budget_witness :
    nthCallResult (initialBudget 1) 1000 = .ok () ∧
    nthCallResult (initialBudget 1) 1001 = .error .rateExceeded :=
  ⟨(C2_rate_limiter_budget 1).1 1000 (by norm_num) (by norm_num [initialBudget]),
   by
    have h := (C2_rate_limiter_budget 1).2.1
    norm_num at h
    exact h⟩

/-- C8 counterexample: a call failing with RateExceeded does change the
remaining-budget counter — at counter 0 the call fails and leaves the
counter at −1, not 0. -/
theorem C8_counterexample :
    (consume 0).1 = .error .rateExceeded ∧ (consume 0).2 ≠ 0 := by
  exact ⟨rfl, by decide⟩

/-- C8 (amended): when consume() fails with RateExceeded the counter has
still been decremented by exactly 1 — the same and only mutation a
successful call performs; the failing call mutates no rate-limiter
state beyond that. -/
theorem C8_failing_call_mutation (c : Int)
    (_hfail : (consume c).1 = .error .rateExceeded) :
    (consume c).2 = c - 1 ∧
    ∀ c' : Int, (consume c').1 = .ok () → (consume c').2 = c' - 1 := by
  exact ⟨rfl, fun c' _ => rfl⟩

/-- C8 witness: the amended statement evaluated at counter 0. -/
theorem C8_failing_call_mutation_witness : (consume 0).2 = 0 - 1 :=
  (C8_failing_call_mutation 0 rfl).1

/-- C9: startup configuration errors are fatal — `model_server`'s
construction succeeds exactly when the declared channel axis is 1 or 3
and the declared bounds are absent or equal to `(0, 255)`; a model with
no `bounds` method is accepted with bounds defaulting to `(0, 255)`. -/
theorem C9_startup_config (ca : Int) (db : Option (Int × Int)) :
    ((∃ cfg, modelServerConfig ca db = .ok cfg) ↔
      ((ca = 1 ∨ ca = 3) ∧ (db = none ∨ db = some DEFAULT_BOUNDS))) ∧
    ((ca = 1 ∨ ca = 3) → modelServerConfig ca none = .ok (ca, DEFAULT_BOUNDS)) := by
  cases db with
  | none =>
    constructor
    · constructor
      · rintro ⟨cfg, hcfg⟩
        by_cases h : ca = 1 ∨ ca = 3
        · exact ⟨h, Or.inl rfl⟩
        · simp [modelServerConfig, h] at hcfg
      · rintro ⟨h, -⟩
        exact ⟨(ca, DEFAULT_BOUNDS), by simp [modelServerConfig, h]⟩
    · intro h
      simp [modelServerConfig, h]
  | some b =>
    constructor
    · constructor
      · rintro ⟨cfg, hcfg⟩
        by_cases h : ca = 1 ∨ ca = 3
        · by_cases hb : b = DEFAULT_BOUNDS
          · exact ⟨h, Or.inr (by rw [hb])⟩
          · simp [modelServerConfig, h, hb] at hcfg
        · simp [modelServerConfig, h] at hcfg
      · rintro ⟨h, hb | hb⟩
        · cases hb
        · obtain rfl : b = DEFAULT_BOUNDS := by injection hb
          exact ⟨(ca, DEFAULT_BOUNDS), by simp [modelServerConfig, h]⟩
    · intro h
      simp [modelServerConfig, h]

/-- C9 witness: channel axis 1 with no bounds method starts with the
default bounds; channel axis 3 with declared bounds `(0, 255)` starts. -/
theorem C9_startup_config_witness :
    modelServerConfig 1 none = .ok (1, DEFAULT_BOUNDS) ∧
    ∃ cfg, modelServerConfig 3 (some (0, 255)) = .ok cfg :=
  ⟨(C9_startup_config 1 none).2 (Or.inl rfl),
   (C9_startup_config 3 (some (0, 255))).1.mpr ⟨Or.inr rfl, Or.inr rfl⟩⟩

/-- The accumulator variant of `np.argmax` stays below the total length:
if the running best index is below the next index, the result is below
the index past the end. -/
theorem argmaxAux_lt (xs : List Int) :
    ∀ (i best : Nat) (bv : Int), best < i → argmaxAux xs i best bv < i + xs.length := by
  induction xs with
  | nil =>
    intro i best bv h
    simpa [argmaxAux] using Nat.lt_of_lt_of_le h (Nat.le_add_right i 0)
  | cons x xs ih =>
    intro i best bv h
    simp only [argmaxAux, List.length_cons]
    split
    · have hx := ih (i + 1) i x (Nat.lt_succ_self i)
      omega
    · have hx := ih (i + 1) best bv (Nat.lt_succ_of_lt h)
      omega

/-- Thus `np.argmax` returns an index into the (non-empty) list. -/
theorem argmaxIdx_lt_length (xs : List Int) (h : xs ≠ []) :
    argmaxIdx xs < xs.length := by
  cases xs with
  | nil => exact absurd rfl h
  | cons x xs =>
    have hx := argmaxAux_lt xs 1 0 x (Nat.lt_succ_self 0)
    simp only [argmaxIdx, List.length_cons]
    omega

/-- Note that `checkBounds` only succeeds inside the bounds, returning its input. -/
theorem checkBounds_ok {b : Int × Int} {p q : Int}
    (h : checkBounds b p = .ok q) : q = p ∧ b.1 ≤ q ∧ q < b.2 := by
  unfold checkBounds at h
  by_cases hb : b.1 ≤ p ∧ p < b.2
  · rw [if_pos hb] at h
    cases h
    exact ⟨rfl, hb⟩
  · rw [if_neg hb] at h
    cases h

/-- C3: output normalization and bound, at the only accepted bounds
`(0, 255)` — a model output that is a multi-element vector is rejected
unless it has exactly 200 elements, in which case the prediction is the
first index of its maximum; a scalar output is the prediction itself iff
it lies in `[0, 255)`; and every successful prediction lies in
`[0, 255)`. -/
theorem C3_output_normalization :
    (∀ v : ValArray, 1 < v.data.length → v.data.length ≠ 200 →
        normalizeOutput DEFAULT_BOUNDS (.ndarray v) = .error .validationError) ∧
    (∀ v : ValArray, v.data.length = 200 →
        normalizeOutput DEFAULT_BOUNDS (.ndarray v) =
          .ok ((argmaxIdx v.data : Nat) : Int)) ∧
    (∀ n : Int, normalizeOutput DEFAULT_BOUNDS (.scalar n) =
        if 0 ≤ n ∧ n < 255 then .ok n else .error .validationError) ∧
    (∀ (out : ModelOut) (p : Int),
        normalizeOutput DEFAULT_BOUNDS out = .ok p → 0 ≤ p ∧ p < 255) := by
  refine ⟨fun v h1 h2 => ?_, fun v h200 => ?_, fun n => ?_, fun out p h => ?_⟩
  · simp [normalizeOutput, h1, h2]
  · have hne : v.data ≠ [] := by
      intro hnil
      rw [hnil] at h200
      cases h200
    have hlt : argmaxIdx v.data < 200 := h200 ▸ argmaxIdx_lt_length v.data hne
    have hbounds : (0 : Int) ≤ ((argmaxIdx v.data : Nat) : Int) ∧
        ((argmaxIdx v.data : Nat) : Int) < 255 := by
      constructor
      · exact Int.natCast_nonneg _
      · omega
    simp [normalizeOutput, h200, checkBounds, DEFAULT_BOUNDS, hbounds]
  · rfl
  · cases out with
    | scalar n =>
      simp only [normalizeOutput] at h
      have := checkBounds_ok h
      exact ⟨this.2.1, this.2.2⟩
    | ndarray a =>
      obtain ⟨sh, dt, da⟩ := a
      simp only [normalizeOutput] at h
      by_cases h1 : 1 < da.length
      · rw [if_pos h1] at h
        by_cases h2 : da.length = 200
        · rw [if_pos h2] at h
          have := checkBounds_ok h
          exact ⟨this.2.1, this.2.2⟩
        · rw [if_neg h2] at h
          cases h
      · rw [if_neg h1] at h
        rcases da with _ | ⟨x, _ | ⟨y, tl⟩⟩
        · cases h
        · have := checkBounds_ok h
          exact ⟨this.2.1, this.2.2⟩
        · cases h

set_option maxRecDepth 40000 in
/-- C3 witness: a 200-element vector with its maximum at index 57 yields
prediction 57; a scalar 42 yields prediction 42. -/
theorem C3_output_normalization_witness :
    normalizeOutput DEFAULT_BOUNDS (.ndarray ⟨[200], "<f4",
        (List.range 200).map (fun i => if i = 57 then (1 : Int) else 0)⟩) = .ok 57 ∧
    normalizeOutput DEFAULT_BOUNDS (.scalar 42) = .ok 42 := by
  constructor
  · have h := C3_output_normalization.2.1
      ⟨[200], "<f4", (List.range 200).map (fun i => if i = 57 then (1 : Int) else 0)⟩
      (by simp)
    rw [h]
    rfl
  · have h := C3_output_normalization.2.2.1 42
    rw [h]
    norm_num

/-- C4: image validation and preprocessing — `_predict` fails with a
ValidationError unless its bound image argument is an ndarray of shape
64×64×3 with uint8 elements; on a valid image the model is invoked on
the float32-converted image, channel axis transposed to position 0
exactly when the model declared `channel_axis() == 1`, and its output is
normalized against the bounds. -/
theorem C4_image_validation :
    (∀ (ca : Int) (b : Int × Int) (pred : ValArray → ModelOut),
        predictImpl ca b pred .notArray = .error .validationError) ∧
    (∀ (ca : Int) (b : Int × Int) (pred : ValArray → ModelOut) (a : ValArray),
        ¬ (a.shape = [64, 64, 3] ∧ isUint8Dtype a.dtype = true) →
        predictImpl ca b pred (.ndarray a) = .error .validationError) ∧
    (∀ (ca : Int) (b : Int × Int) (pred : ValArray → ModelOut) (a : ValArray),
        a.shape = [64, 64, 3] → isUint8Dtype a.dtype = true →
        predictImpl ca b pred (.ndarray a) =
          normalizeOutput b
            (pred (if ca = 1 then transpose201 (astypeFloat32 a)
                   else astypeFloat32 a))) := by
  refine ⟨fun ca b pred => rfl, fun ca b pred a h => ?_, fun ca b pred a h1 h2 => ?_⟩
  · by_cases h1 : a.shape = [64, 64, 3]
    · have h2 : ¬ (isUint8Dtype a.dtype = true) := fun hu => h ⟨h1, hu⟩
      show (if a.shape = [64, 64, 3] then _ else _) = _
      rw [if_pos h1, if_neg h2]
    · show (if a.shape = [64, 64, 3] then _ else _) = _
      rw [if_neg h1]
  · show (if a.shape = [64, 64, 3] then _ else _) = _
    rw [if_pos h1, if_pos h2]
    dsimp only
    cases pred (if ca = 1 then transpose201 (astypeFloat32 a)
        else astypeFloat32 a) with
    | scalar n => rfl
    | ndarray out => rfl

/-- C4 witness: a valid 64×64×3 uint8 image reaches the model (which
returns scalar 42, so the prediction is 42); a 32×32×3 image fails with
a ValidationError. -/
theorem C4_image_validation_witness :
    predictImpl 3 DEFAULT_BOUNDS (fun _ => .scalar 42)
      (.ndarray ⟨[64, 64, 3], "|u1", List.replicate (64 * 64 * 3) 0⟩) = .ok 42 ∧
    predictImpl 3 DEFAULT_BOUNDS (fun _ => .scalar 42)
      (.ndarray ⟨[32, 32, 3], "|u1", List.replicate (32 * 32 * 3) 0⟩) =
        .error .validationError := by
  constructor
  · have h := C4_image_validation.2.2 3 DEFAULT_BOUNDS (fun _ => .scalar 42)
      ⟨[64, 64, 3], "|u1", List.replicate (64 * 64 * 3) 0⟩ rfl (by decide)
    rw [h]
    rfl
  · exact C4_image_validation.2.1 3 DEFAULT_BOUNDS (fun _ => .scalar 42)
      ⟨[32, 32, 3], "|u1", List.replicate (32 * 32 * 3) 0⟩ (by decide)

/-- C5: binding precedence — for a declared argument name, the sources
are consulted in the fixed order body fields, query parameters, form
fields, uploaded files, first match wins: a name bound by the body is
bound to the body's value whatever the later sources hold; a name absent
from the body binds to the query value; and so on down to files (whose
bytes are wrapped per the parameter's image annotation). -/
theorem C5_binding_precedence (schema : List Param) (req : Request) (name : String)
    (hname : name ∈ paramNames schema) :
    (∀ v, req.bsonArgs.lookup name = some v →
        (bindArgs schema req).lookup name = some v) ∧
    (req.bsonArgs.lookup name = none →
      ∀ v, req.queryArgs.lookup name = some v →
        (bindArgs schema req).lookup name = some v) ∧
    (req.bsonArgs.lookup name = none → req.queryArgs.lookup name = none →
      ∀ v, req.formArgs.lookup name = some v →
        (bindArgs schema req).lookup name = some v) ∧
    (req.bsonArgs.lookup name = none → req.queryArgs.lookup name = none →
      req.formArgs.lookup name = none →
      ∀ bs, req.fileArgs.lookup name = some bs →
        (bindArgs schema req).lookup name =
          some (if isImageParam schema name then BVal.image bs else BVal.bytes bs)) := by
  refine ⟨fun v hb => ?_, fun hb v hq => ?_, fun hb hq v hf => ?_, fun hb hq hf bs hfi => ?_⟩
  · exact foldl_fileStep_preserve schema _ _
      (foldl_bindStep_preserve schema _ _
        (foldl_bindStep_preserve schema _ _
          (foldl_bindStep_first_match schema _ _ rfl hname hb)))
  · exact foldl_fileStep_preserve schema _ _
      (foldl_bindStep_preserve schema _ _
        (foldl_bindStep_first_match schema _ _
          ((foldl_bindStep_absent schema _ _ hb).trans rfl) hname hq))
  · exact foldl_fileStep_preserve schema _ _
      (foldl_bindStep_first_match schema _ _
        ((foldl_bindStep_absent schema _ _ hq).trans
          ((foldl_bindStep_absent schema _ _ hb).trans rfl)) hname hf)
  · exact foldl_fileStep_first_match schema _ _
      ((foldl_bindStep_absent schema _ _ hf).trans
        ((foldl_bindStep_absent schema _ _ hq).trans
          ((foldl_bindStep_absent schema _ _ hb).trans rfl))) hname hfi

/-- C5 witness: the field `"x"` is present in both the body and the
query parameters; it binds to the body's value. -/
theorem C5_binding_precedence_witness :
    (bindArgs [⟨"x", false⟩]
      ⟨[("x", .int 1)], [("x", .int 2)], [], []⟩).lookup "x" = some (.int 1) :=
  (C5_binding_precedence [⟨"x", false⟩]
    ⟨[("x", .int 1)], [("x", .int 2)], [], []⟩ "x" (by decide)).1 (.int 1) rfl

/-- C6: unknown-field tolerance — a request field whose name is not a
declared parameter is never bound (binding is total, no error is
raised), and inserting such a field into any of the four sources leaves
the entire bound argument mapping unchanged. -/
theorem C6_unknown_field (schema : List Param) (req : Request) (name : String)
    (hname : name ∉ paramNames schema) :
    ((bindArgs schema req).lookup name = none) ∧
    (∀ (v : BVal) (l₁ l₂ : List (String × BVal)),
      bindArgs schema { req with bsonArgs := l₁ ++ (name, v) :: l₂ } =
        bindArgs schema { req with bsonArgs := l₁ ++ l₂ }) ∧
    (∀ (v : BVal) (l₁ l₂ : List (String × BVal)),
      bindArgs schema { req with queryArgs := l₁ ++ (name, v) :: l₂ } =
        bindArgs schema { req with queryArgs := l₁ ++ l₂ }) ∧
    (∀ (v : BVal) (l₁ l₂ : List (String × BVal)),
      bindArgs schema { req with formArgs := l₁ ++ (name, v) :: l₂ } =
        bindArgs schema { req with formArgs := l₁ ++ l₂ }) ∧
    (∀ (bs : List Nat) (l₁ l₂ : List (String × List Nat)),
      bindArgs schema { req with fileArgs := l₁ ++ (name, bs) :: l₂ } =
        bindArgs schema { req with fileArgs := l₁ ++ l₂ }) := by
  refine ⟨?_, fun v l₁ l₂ => ?_, fun v l₁ l₂ => ?_, fun v l₁ l₂ => ?_, fun bs l₁ l₂ => ?_⟩
  · rw [show bindArgs schema req = req.fileArgs.foldl (fileStep schema)
        (req.formArgs.foldl (bindStep schema)
          (req.queryArgs.foldl (bindStep schema)
            (req.bsonArgs.foldl (bindStep schema) []))) from rfl]
    rw [foldl_fileStep_not_param schema _ _ hname,
        foldl_bindStep_not_param schema _ _ hname,
        foldl_bindStep_not_param schema _ _ hname,
        foldl_bindStep_not_param schema _ _ hname]
    rfl
  · simp only [bindArgs]
    rw [foldl_bindStep_erase_unknown schema hname]
  · simp only [bindArgs]
    rw [foldl_bindStep_erase_unknown schema hname]
  · simp only [bindArgs]
    rw [foldl_bindStep_erase_unknown schema hname]
  · simp only [bindArgs]
    rw [foldl_fileStep_erase_unknown schema hname]

/-- C6 witness: the undeclared field `"y"` is not bound, and adding it
to the body does not change the binding result at all. -/
theorem C6_unknown_field_witness :
    (bindArgs [⟨"x", false⟩]
      ⟨[("x", .int 1), ("y", .int 9)], [], [], []⟩).lookup "y" = none ∧
    bindArgs [⟨"x", false⟩] ⟨[("x", .int 1), ("y", .int 9)], [], [], []⟩ =
      bindArgs [⟨"x", false⟩] ⟨[("x", .int 1)], [], [], []⟩ :=
  ⟨(C6_unknown_field [⟨"x", false⟩]
      ⟨[("x", .int 1), ("y", .int 9)], [], [], []⟩ "y" (by decide)).1,
   (C6_unknown_field [⟨"x", false⟩]
      ⟨[("x", .int 1), ("y", .int 9)], [], [], []⟩ "y" (by decide)).2.1
      (.int 9) [("x", .int 1)] []⟩

/-- C7 counterexample: a tagged array entry whose `shape` field is
`[-1]` has buffer length 3, which differs from product(shape) × itemsize
= −1 × 1 = −1, yet decoding succeeds — `reshape` infers the `-1`
dimension instead of failing. -/
theorem C7_counterexample :
    decodeEntry (.doc [("type", .str "array"), ("shape", .list [.int (-1)]),
        ("dtype", .str "<u1"), ("data", .bytes [7, 8, 9])]) =
      .ok (.arr ⟨[3], "<u1", [7, 8, 9]⟩) ∧
    ((3 : Int) ≠ (-1) * (itemsize "<u1" : Int)) := by
  exact ⟨rfl, by decide⟩

/-- C7 (amended): for every tagged array entry whose `shape` field reads
as integers that are all nonnegative (so numpy's `-1` inference is not
involved), decoding fails with a DecodeError whenever the byte buffer
length differs from product(shape) × itemsize(dtype); the buffer is
never truncated or padded to fit. -/
theorem C7_decode_size_mismatch (fields : List (String × BVal))
    (shapeVal : BVal) (dtype : String) (data : List Nat) (shapeInts : List Int)
    (htag : isArrayTag (fields.lookup "type") = true)
    (hshape : fields.lookup "shape" = some shapeVal)
    (hdtype : fields.lookup "dtype" = some (.str dtype))
    (hdata : fields.lookup "data" = some (.bytes data))
    (hS : asShape shapeVal = .ok shapeInts)
    (hpos : ∀ i ∈ shapeInts, 0 ≤ i)
    (hmm : data.length ≠ shapeProd (shapeInts.map Int.toNat) * itemsize dtype) :
    decodeEntry (.doc fields) = .error .decodeError := by
  rw [decodeEntry_tagged fields shapeVal dtype data htag hshape hdtype hdata, hS]
  simp only [except_bind_ok]
  by_cases hiz : 0 < itemsize dtype
  · by_cases hmod : data.length % itemsize dtype = 0
    · have hfb : frombufferCount dtype data.length =
          .ok (data.length / itemsize dtype) := by
        unfold frombufferCount
        rw [if_pos hiz, if_pos hmod]
      rw [hfb]
      simp only [except_bind_ok]
      have hany : shapeInts.any (fun i => decide (i < -1)) = false := by
        rw [List.any_eq_false]
        intro i hi
        have h0 := hpos i hi
        simp only [decide_eq_true_eq, not_lt]
        omega
      have hfilter : shapeInts.filter (fun i => decide (i = -1)) = [] := by
        rw [List.filter_eq_nil_iff]
        intro i hi
        have h0 := hpos i hi
        simp only [decide_eq_true_eq]
        omega
      have hlen : shapeProd (shapeInts.map Int.toNat) ≠
          data.length / itemsize dtype := by
        intro heq
        apply hmm
        calc data.length
            = data.length / itemsize dtype * itemsize dtype :=
              (Nat.div_mul_cancel (Nat.dvd_of_mod_eq_zero hmod)).symm
          _ = shapeProd (shapeInts.map Int.toNat) * itemsize dtype := by rw [heq]
      unfold reshape
      rw [show (shapeInts.any fun i => i < -1) =
            (shapeInts.any fun i => decide (i < -1)) from rfl, hany]
      rw [show (shapeInts.filter fun i => i = -1) =
            (shapeInts.filter fun i => decide (i = -1)) from rfl, hfilter]
      simp only [Bool.false_eq_true, if_false, List.length_nil]
      rw [if_neg (by omega : ¬ (1 : Nat) < 0), if_neg (by omega : ¬ (0 : Nat) = 1),
          if_neg hlen]
      rfl
    · have hfb : frombufferCount dtype data.length = .error .decodeError := by
        unfold frombufferCount
        rw [if_pos hiz, if_neg hmod]
      rw [hfb]
      rfl
  · have hfb : frombufferCount dtype data.length = .error .decodeError := by
      unfold frombufferCount
      rw [if_neg hiz]
    rw [hfb]
    rfl

/-- C7 witness of the amended claim: a uint8 entry declaring shape `[4]`
with a 3-byte buffer fails to decode. -/
theorem C7_decode_size_mismatch_witness :
    decodeEntry (.doc [("type", .str "array"), ("shape", .list [.int 4]),
        ("dtype", .str "<u1"), ("data", .bytes [7, 8, 9])]) = .error .decodeError :=
  C7_decode_size_mismatch _ _ _ _ [4] rfl rfl rfl rfl rfl (by decide) (by decide)

/-- C10: codec frame property — `_encode_arrays` and `_decode_arrays`
return a mapping with exactly the input's keys in order (they rewrite
the one mapping entry-by-entry); an entry that is not an ndarray (for
encode) or not a document tagged `type == "array"` (for decode) keeps
its value, and in particular a tagged array descriptor nested more than
one level deep (inside an untagged document) is left undecoded. -/
theorem C10_codec_frame :
    (∀ d : List (String × BVal), (encodeArrays d).map Prod.fst = d.map Prod.fst) ∧
    (∀ v : BVal, (∀ a, v ≠ .arr a) → encodeEntry v = v) ∧
    (∀ d d' : List (String × BVal), decodeArrays d = .ok d' →
        d'.map Prod.fst = d.map Prod.fst) ∧
    (∀ v : BVal, (∀ fields, v ≠ .doc fields) → decodeEntry v = .ok v) ∧
    (∀ fields : List (String × BVal), isArrayTag (fields.lookup "type") = false →
        decodeEntry (.doc fields) = .ok (.doc fields)) := by
  refine ⟨fun d => ?_, fun v hv => ?_, fun d => ?_, fun v hv => ?_, fun fields hf => ?_⟩
  · induction d with
    | nil => rfl
    | cons kv tl ih =>
      simp only [encodeArrays, List.map_cons] at ih ⊢
      rw [ih]
  · cases v with
    | arr a => exact absurd rfl (hv a)
    | int n => rfl
    | str s => rfl
    | bytes bs => rfl
    | list xs => rfl
    | doc fields => rfl
    | image bs => rfl
  · induction d with
    | nil =>
      intro d' h
      cases h
      rfl
    | cons kv tl ih =>
      intro d' h
      simp only [decodeArrays] at h
      cases hv : decodeEntry kv.2 with
      | error e =>
        rw [hv] at h
        simp only [except_bind_error] at h
        cases h
      | ok v =>
        rw [hv] at h
        simp only [except_bind_ok] at h
        cases hrest : decodeArrays tl with
        | error e =>
          rw [hrest] at h
          simp only [except_bind_error] at h
          cases h
        | ok rest =>
          rw [hrest] at h
          simp only [except_bind_ok] at h
          cases h
          simp only [List.map_cons]
          rw [ih rest hrest]
  · cases v with
    | doc fields => exact absurd rfl (hv fields)
    | int n => rfl
    | str s => rfl
    | bytes bs => rfl
    | list xs => rfl
    | arr a => rfl
    | image bs => rfl
  · rw [decodeEntry_doc]
    rw [if_neg (by rw [hf]; exact Bool.false_ne_true)]

/-- C10 witness: an untagged document carrying a tagged array descriptor
one level deeper passes through decoding unchanged, and a non-array
value passes through encoding unchanged. -/
theorem C10_codec_frame_witness :
    decodeEntry (.doc [("inner", .doc [("type", .str "array"),
        ("shape", .list [.int 1]), ("dtype", .str "<u1"), ("data", .bytes [7])])]) =
      .ok (.doc [("inner", .doc [("type", .str "array"), ("shape", .list [.int 1]),
        ("dtype", .str "<u1"), ("data", .bytes [7])])]) ∧
    encodeEntry (.str "hello") = .str "hello" :=
  ⟨C10_codec_frame.2.2.2.2 _ rfl,
   C10_codec_frame.2.1 (.str "hello") (fun _ h => BVal.noConfusion h)⟩

end AVC
